import Mathlib

/-!
Verification of the ClientParser repository: a shallow embedding of the
configuration parsing (clientparser/config.py), the per-scope table routing
and model cache (clientparser/database.py), the DHCP lease-line parsing, the
forward/reverse DNS record processing, the fan-out batch gathering, the
per-cycle table replacement, and the scheduler loop
(clientparser/__init__.py), together with theorems settling the spec claims.

Python string operations are modelled by executable functions over the
character list of a `String` (the library's `String` functions do not reduce
in the kernel): `str.strip` by `pyStrip`, `str.split(sep)` by `pySplitStr`,
`str.upper`/`str.lower` by `pyUpper`/`pyLower`, slicing `s[:-n]` by
`pyDropRight`, single-character `str.replace(c, "")` by `pyRemove`, and
`sep.join` by `pyJoin`.  Wall-clock time is modelled in whole seconds as
`Nat`; Python's `timedelta.seconds` on a non-negative delta is the delta
modulo 86400.
-/

/-- Python `str.split(sep)` for a one-character separator, on character
lists; an empty string yields the singleton list of the empty string. -/
def pySplit (sep : Char) : List Char → List (List Char)
  | [] => [[]]
  | c :: rest =>
    if c = sep then [] :: pySplit sep rest
    else
      match pySplit sep rest with
      | [] => [[c]]
      | h :: t => (c :: h) :: t

/-- Split on a character predicate (used for Python's argumentless
`str.split()`, which splits on whitespace runs). -/
def pySplitPred (p : Char → Bool) : List Char → List (List Char)
  | [] => [[]]
  | c :: rest =>
    if p c then [] :: pySplitPred p rest
    else
      match pySplitPred p rest with
      | [] => [[c]]
      | h :: t => (c :: h) :: t

/-- Python `str.strip()` on a character list: drop leading and trailing
whitespace. -/
def chStrip (l : List Char) : List Char :=
  ((l.dropWhile Char.isWhitespace).reverse.dropWhile Char.isWhitespace).reverse

/-- Whether `l` begins with `p`, on character lists. -/
def chStarts : List Char → List Char → Bool
  | [], _ => true
  | _ :: _, [] => false
  | p :: ps, c :: cs => p = c && chStarts ps cs

/-- `sep.join(parts)` on character lists. -/
def pyJoinCh (sep : Char) : List (List Char) → List Char
  | [] => []
  | [x] => x
  | x :: xs => x ++ sep :: pyJoinCh sep xs

/-- Python `str.split(sep)` for a one-character separator. -/
def pySplitStr (sep : Char) (s : String) : List String :=
  (pySplit sep s.data).map List.asString

/-- Python `str.strip()`. -/
def pyStrip (s : String) : String :=
  (chStrip s.data).asString

/-- Python `str.replace(c, "")` for a one-character pattern: delete every
occurrence of the character. -/
def pyRemove (ch : Char) (s : String) : String :=
  (s.data.filter fun c => ¬ c = ch).asString

/-- Python `str.upper()` (the repository's inputs are ASCII). -/
def pyUpper (s : String) : String :=
  (s.data.map Char.toUpper).asString

/-- Python `str.lower()` (the repository's inputs are ASCII). -/
def pyLower (s : String) : String :=
  (s.data.map Char.toLower).asString

/-- Python `s.startswith(p)`. -/
def pyStartsWith (s p : String) : Bool :=
  chStarts p.data s.data

/-- Python `s.endswith(p)`. -/
def pyEndsWith (s p : String) : Bool :=
  chStarts p.data.reverse s.data.reverse

/-- Python slicing `s[:-n]` (`s[:len(s)-n]`, empty when `n ≥ len(s)`). -/
def pyDropRight (s : String) (n : Nat) : String :=
  (s.data.take (s.data.length - n)).asString

/-- Python `sep.join(parts)` for a one-character separator. -/
def pyJoin (sep : Char) (parts : List String) : String :=
  (pyJoinCh sep (parts.map String.data)).asString

/-- Python `len(s)` (code points). -/
def pyLen (s : String) : Nat :=
  s.data.length

/-- Python `str(x)` on an optional string, where `none` models `None`:
`str(None)` is the four-character string `"None"`. -/
def pyStr : Option String → String
  | none => "None"
  | some s => s

/-- Embeds `Config.__post_init__`'s list parsing
(`os.getenv(...).replace("[", "").replace("]", "").replace(" ", "").split(",")`):
delete every `[`, `]` and space character, then split on commas. -/
def parseListEnv (s : String) : List String :=
  pySplitStr ',' (pyRemove ' ' (pyRemove ']' (pyRemove '[' s)))

/-- The part of the `Config` state that the claims need: the parsed `SCOPES`
and `DNS_REVERSE_ZONES` lists. -/
structure ConfigData where
  scopes : List String
  dns_reverse_zones : List String
deriving Repr, DecidableEq

/-- Embeds `Config.__post_init__` for the two list-valued environment
variables.  `os.getenv` returns `None` when the variable is absent, modelled
as `Option.none`; calling `.replace` on `None` raises `AttributeError`,
modelled as `Except.error`. -/
def configPostInit (scopesEnv dnsReverseZonesEnv : Option String) :
    Except String ConfigData :=
  match scopesEnv with
  | none => Except.error "AttributeError: NoneType object has no attribute replace"
  | some s =>
    match dnsReverseZonesEnv with
    | none => Except.error "AttributeError: NoneType object has no attribute replace"
    | some r => Except.ok { scopes := parseListEnv s, dns_reverse_zones := parseListEnv r }

/-- Embeds `DHCPModel.__tablename__` (database.py): if the scope starts with
`"10"` the table is `temp_private_<scope.split('.')[2]>`, otherwise
`temp_public_<scope.split('.')[2]>`.  Python raises `IndexError` when the
scope has fewer than three dot-separated tokens; that case is modelled by
`Option.none`. -/
def dhcpTableName (scope : String) : Option String :=
  match (pySplitStr '.' scope).get? 2 with
  | none => none
  | some oct =>
    if pyStartsWith scope "10" then some ("temp_private_" ++ oct)
    else some ("temp_public_" ++ oct)

/-- A dynamically created DHCP model class (database.py
`create_dhcp_models`): the generated class name and its `scope` attribute. -/
structure DhcpModel where
  className : String
  scope : String
deriving Repr, DecidableEq

/-- Embeds `type(class_name, (cls,), {"scope": scope})` with
`class_name = f"DHCPModel_{scope.replace('.', '_')}"`. -/
def mkDhcpModel (scope : String) : DhcpModel :=
  { className := "DHCPModel_" ++ (scope.data.map fun c => if c = '.' then '_' else c).asString
    scope := scope }

/-- The physical table of a model, per `DHCPModel.__tablename__`. -/
def DhcpModel.tablename (m : DhcpModel) : Option String :=
  dhcpTableName m.scope

/-- Lookup in the `_model_cache` dictionary, modelled as an association
list. -/
def cacheFind : List (String × DhcpModel) → String → Option DhcpModel
  | [], _ => none
  | (k, v) :: rest, s => if k = s then some v else cacheFind rest s

/-- One cache update of `create_dhcp_models`: `if scope not in
cls._model_cache: cls._model_cache[scope] = model`.  (The position of the
new binding in the association list is immaterial to dictionary lookup.) -/
def cacheAdd (cache : List (String × DhcpModel)) (s : String) :
    List (String × DhcpModel) :=
  match cacheFind cache s with
  | some _ => cache
  | none => (s, mkDhcpModel s) :: cache

/-- Embeds `DHCPModel.create_dhcp_models(scopes)` with explicit cache state:
for each scope, create and cache the model if absent, then append the cached
model; returns the model list and the updated cache. -/
def create_dhcp_models : List (String × DhcpModel) → List String →
    List DhcpModel × List (String × DhcpModel)
  | cache, [] => ([], cache)
  | cache, s :: rest =>
    ((cacheFind (cacheAdd cache s) s).getD (mkDhcpModel s) ::
        (create_dhcp_models (cacheAdd cache s) rest).1,
      (create_dhcp_models (cacheAdd cache s) rest).2)

/-- A parsed DHCP lease record: the fields of a new `model_class(...)` entry
(`__init__.py`, `_get_dhcp_data`).  The ambient `timestamp = datetime.now()`
is omitted. -/
structure LeaseRecord where
  ip : String
  mac_address : String
  lease_status : String
  hostname : String
  subnet : String
deriving Repr, DecidableEq

/-- Embeds `re.split(r"-(N|U|D)-", lease, maxsplit=1)` on a character list:
scan left to right for the first occurrence of `-X-` with `X` one of
`N`/`U`/`D`; return the text before the match, the matched letter, and the
text after, or `none` when there is no occurrence (so the split would return
a single-element list and the line is skipped). -/
def splitMarkerAux : List Char → Option (List Char × Char × List Char)
  | [] => none
  | c :: tail =>
    match c, tail with
    | '-', m :: '-' :: rest =>
      if m = 'N' ∨ m = 'U' ∨ m = 'D' then some ([], m, rest)
      else (splitMarkerAux tail).map fun p => (c :: p.1, p.2)
    | _, _ => (splitMarkerAux tail).map fun p => (c :: p.1, p.2)

/-- String wrapper for `splitMarkerAux`. -/
def splitMarkerStr (s : String) : Option (String × Char × String) :=
  (splitMarkerAux s.data).map fun p => (p.1.asString, p.2.1, p.2.2.asString)

/-- The MAC as joined from the hyphen-split left segment, before the length
check: `":".join(part.strip().upper() for part in small_lease_parts[2:-1])`. -/
def leaseMacRaw (left : String) : String :=
  pyJoin ':' ((((pySplitStr '-' left).drop 2).dropLast).map fun p => pyUpper (pyStrip p))

/-- The stored MAC:
`if len(mac_address) > 17: mac_address = mac_address + ":XX"`. -/
def leaseMac (left : String) : String :=
  let m := leaseMacRaw left
  if 17 < pyLen m then m ++ ":XX" else m

/-- Python `scope.split()[0]`: first whitespace-delimited token (`split()`
drops empty tokens; the index error on an all-whitespace scope string is
unreachable for configured scopes and modelled as `""`). -/
def firstWsToken (s : String) : String :=
  (((pySplitPred Char.isWhitespace s.data).filter fun t => ¬ t = []).headD []).asString

/-- Embeds the per-line body of `_get_dhcp_data`'s lease loop: lines not
starting with `"1"` and lines without a `-(N|U|D)-` marker yield no record;
otherwise the left segment is hyphen-split into IP (first token), MAC
(tokens `[2:-1]`, trimmed, upper-cased, colon-joined, `":XX"`-suffixed when
longer than 17 characters) and lease status (last token, trimmed), the
hostname is the lower-cased first dot-label of the trimmed right segment,
and the subnet is the first whitespace token of the scope. -/
def parseLease (scope line : String) : Option LeaseRecord :=
  if pyStartsWith line "1" then
    match splitMarkerStr line with
    | none => none
    | some (left, _, right) =>
      let small := pySplitStr '-' left
      some { ip := pyStrip (small.headD "")
             mac_address := leaseMac left
             lease_status := pyStrip ((small.getLast?).getD "")
             hostname := pyLower ((pySplitStr '.' (pyStrip right)).headD "")
             subnet := firstWsToken scope }
  else none

/-- One record of the JSON array produced by the PowerShell commands: the
`Name`, `Hostname` and `Type` strings and the `Data` value, which the
PowerShell `switch` sets to `$null` (JSON `null`, modelled `none`) for
unsupported record types. -/
structure RawDnsJson where
  name : String
  hostname : String
  rtype : String
  data : Option String
deriving Repr, DecidableEq

/-- A stored `DNSModel` row (database.py); the ambient timestamp is
omitted. -/
structure DnsEntry where
  name : String
  hostname : String
  record_type : String
  data : String
deriving Repr, DecidableEq

/-- Embeds the per-record body of `_get_dns_forward_data`'s loop: every
field is trimmed, and the `Data` value goes through Python's
`str(record.get("Data", ""))`, so a JSON `null` becomes the string
`"None"`. -/
def getDnsForwardRecord (rec : RawDnsJson) : DnsEntry :=
  { name := pyStrip rec.name
    hostname := pyStrip rec.hostname
    record_type := pyStrip rec.rtype
    data := pyStrip (pyStr rec.data) }

/-- `".".join(reversed(zone[:-13].split(".")))` from
`_get_dns_reverse_data`: drop the fixed 13-character reverse-zone suffix,
split the remaining dotted text and reverse the token order. -/
def reversedZoneFragment (zone : String) : String :=
  pyJoin '.' (pySplitStr '.' (pyDropRight zone 13)).reverse

/-- The forward-zone suffix strip of `_get_dns_reverse_data`:
`if data.lower().endswith(f".{dns_zone.lower()}."):
data = data[:-len(dns_zone) - 2]`. -/
def stripForwardZone (dnsZone data : String) : String :=
  if pyEndsWith (pyLower data) ("." ++ pyLower dnsZone ++ ".") then
    pyDropRight data (pyLen dnsZone + 2)
  else data

/-- Embeds the per-record body of `_get_dns_reverse_data`'s loop: fields are
trimmed; the stored `hostname` is the (possibly forward-zone-stripped) PTR
target taken from the JSON `Data`, and the stored `data` is the reversed
zone fragment joined with the JSON `Hostname` (the PTR owner label). -/
def getDnsReverseRecord (dnsZone zone : String) (rec : RawDnsJson) : DnsEntry :=
  let name := pyStrip rec.name
  let hostname := pyStrip rec.hostname
  let rtype := pyStrip rec.rtype
  let data := pyStrip (pyStr rec.data)
  let reversedIp := reversedZoneFragment zone
  let data2 := stripForwardZone dnsZone data
  { name := name
    hostname := data2
    record_type := rtype
    data := reversedIp ++ "." ++ hostname }

/-- The records committed for one DHCP scope's command output
(`_get_dhcp_data`): every line of the output that parses to a lease record
is added to the database; non-matching lines are silently skipped. -/
def processScopeOutput (scope stdout : String) : List LeaseRecord :=
  (pySplitStr '\n' stdout).filterMap (parseLease scope)

/-- Embeds the result-gathering loop of `_get_dhcp_data`: the fan-out batch
results are consumed in scope order; each successful scope's records are
committed (per-row sessions) before the next result is examined, and the
first failing scope raises `RuntimeError("Error processing scope ...")`,
leaving the already-committed records in place.  The first component is the
committed database content, the second the raised error, if any. -/
def getDhcpBatch (db : List LeaseRecord) :
    List (String × Except String String) → List LeaseRecord × Option String
  | [] => (db, none)
  | (scope, Except.error e) :: _ =>
    (db, some ("Error processing scope " ++ scope ++ ": " ++ e))
  | (scope, Except.ok stdout) :: rest =>
    getDhcpBatch (db ++ processScopeOutput scope stdout) rest

/-- Embeds the result-gathering loop of `_get_dns_reverse_data`, analogous
to `getDhcpBatch`: per-zone JSON record lists are consumed in zone order,
each record committed in its own session, and the first failing zone raises
`RuntimeError("Error processing zone ...")`, leaving earlier zones'
committed records in place. -/
def getDnsReverseBatch (dnsZone : String) (db : List DnsEntry) :
    List (String × Except String (List RawDnsJson)) → List DnsEntry × Option String
  | [] => (db, none)
  | (zone, Except.error e) :: _ =>
    (db, some ("Error processing zone " ++ zone ++ ": " ++ e))
  | (zone, Except.ok recs) :: rest =>
    getDnsReverseBatch dnsZone (db ++ recs.map (getDnsReverseRecord dnsZone zone)) rest

/-- The relational store visible to readers: an association of table names
to committed row lists (rows are opaque strings here). -/
abbrev StoreDB := List (String × List String)

/-- Table lookup in the store: the reader-visible contents of a table, or
`none` when no table of that name exists. -/
def dbFind : StoreDB → String → Option (List String)
  | [], _ => none
  | (k, v) :: rest, t => if k = t then some v else dbFind rest t

/-- Replace (or add) a table's contents. -/
def dbSet : StoreDB → String → List String → StoreDB
  | [], t, rows => [(t, rows)]
  | (k, v) :: rest, t, rows =>
    if k = t then (t, rows) :: rest else (k, v) :: dbSet rest t rows

/-- `DROP TABLE`: remove the table from the store. -/
def dbDrop : StoreDB → String → StoreDB
  | [], _ => []
  | (k, v) :: rest, t =>
    if k = t then dbDrop rest t else (k, v) :: dbDrop rest t

/-- One storage statement issued during a cycle.  Every statement is
committed on its own (`session_scope` commits per session, and
`initialize_and_create_tables` drops/creates directly), so the state after
each statement is visible to a concurrent reader. -/
inductive StorageOp
  | dropTable (table : String)
  | createTable (table : String)
  | insertRow (table : String) (row : String)
deriving Repr, DecidableEq

/-- Apply one storage statement: `drop(checkfirst=True)` removes the table
if present, `create(checkfirst=True)` creates it empty if absent, and an
insert appends a row to an existing table. -/
def applyOp (d : StoreDB) : StorageOp → StoreDB
  | StorageOp.dropTable t => dbDrop d t
  | StorageOp.createTable t =>
    match dbFind d t with
    | some _ => d
    | none => dbSet d t []
  | StorageOp.insertRow t r =>
    match dbFind d t with
    | some rows => dbSet d t (rows ++ [r])
    | none => d

/-- All reader-visible states along a sequence of individually committed
storage statements, starting from `init` (which is itself visible before
the first statement). -/
def statesAfter (init : StoreDB) (ops : List StorageOp) : List StoreDB :=
  List.scanl applyOp init ops

/-- The storage statements one table sees during a collection cycle:
`initialize_and_create_tables` drops and recreates it under its live name,
and the collection then inserts each row in its own committed session
(`drop_and_rename_table` exists in database.py but is never called). -/
def tableCycleOps (t : String) (rows : List String) : List StorageOp :=
  StorageOp.dropTable t :: StorageOp.createTable t ::
    rows.map (StorageOp.insertRow t)

/-- The scheduler state of `ClientParser.run`: the `is_last_run` flag, the
`last_runtime` value, the current wall-clock second, and the ghost log of
cycle start times. -/
structure RunState where
  isLastRun : Bool
  lastRuntime : Nat
  now : Nat
  cycles : List Nat
deriving Repr, DecidableEq

/-- The scheduler state right before the `while` loop:
`is_last_run = False`, `last_runtime = datetime.now()`. -/
def mkInit (t : Nat) : RunState :=
  { isLastRun := false, lastRuntime := t, now := t, cycles := [] }

/-- One iteration of `ClientParser.run`'s `while` loop.  The input is the
wall-clock advance `a` before the interval check, the duration `dur` of
`_get_data` when it runs, and `res`, the error message raised by the cycle's
collection, if any (`none` = success).  With `interval == 0` the cycle runs
and `is_last_run` is set; otherwise the cycle runs only when
`(now - last_runtime).seconds >= interval` (the `timedelta.seconds` field is
the delta modulo 86400), with `last_runtime` updated to the cycle's end and
a one-second sleep; a raised error propagates out of the loop wrapped as
`RuntimeError("Error occurred during execution: ...")` by `_get_data`. -/
def runStep (interval : Nat) (s : RunState) :
    Nat × Nat × Option String → RunState × Option String
  | (a, dur, res) =>
    let t := s.now + a
    if interval = 0 then
      match res with
      | some e =>
        ({ s with now := t, cycles := s.cycles ++ [t] },
         some ("Error occurred during execution: " ++ e))
      | none =>
        ({ s with isLastRun := true, now := t + dur, cycles := s.cycles ++ [t] }, none)
    else if interval ≤ (t - s.lastRuntime) % 86400 then
      match res with
      | some e =>
        ({ s with lastRuntime := t, now := t, cycles := s.cycles ++ [t] },
         some ("Error occurred during execution: " ++ e))
      | none =>
        ({ s with lastRuntime := t + dur, now := t + dur + 1, cycles := s.cycles ++ [t] },
         none)
    else ({ s with now := t + 1 }, none)

/-- The `while not is_last_run` loop of `ClientParser.run`, driven by a
finite list of iteration inputs (a prefix of the infinite repeating run).
An uncaught error terminates the loop immediately; the final state and the
escaped error are returned. -/
def runLoop (interval : Nat) (s : RunState) :
    List (Nat × Nat × Option String) → RunState × Option String
  | [] => (s, none)
  | i :: rest =>
    if s.isLastRun then (s, none)
    else
      match runStep interval s i with
      | (s', none) => runLoop interval s' rest
      | (s', some e) => (s', some e)

/-- `cacheAdd` makes the scope's model visible: afterwards the lookup finds
the cached model, the previously cached one when present, a fresh
`mkDhcpModel` otherwise. -/
theorem cacheFind_cacheAdd_self (c : List (String × DhcpModel)) (s : String) :
    cacheFind (cacheAdd c s) s = some ((cacheFind c s).getD (mkDhcpModel s)) := by
  unfold cacheAdd
  cases h : cacheFind c s with
  | some v => simp [h]
  | none => simp [cacheFind, h]

/-- `cacheAdd` is the identity on a cache that already holds the scope. -/
theorem cacheAdd_of_found {c : List (String × DhcpModel)} {s : String}
    {v : DhcpModel} (h : cacheFind c s = some v) : cacheAdd c s = c := by
  unfold cacheAdd
  rw [h]

/-- `create_dhcp_models` never overwrites an existing cache binding. -/
theorem cacheFind_create_dhcp_models (v : DhcpModel) :
    ∀ (ss : List String) (c : List (String × DhcpModel)) (s : String),
      cacheFind c s = some v →
      cacheFind (create_dhcp_models c ss).2 s = some v := by
  intro ss
  induction ss with
  | nil => intro c s h; simpa [create_dhcp_models] using h
  | cons s' rest ih =>
    intro c s h
    simp only [create_dhcp_models]
    apply ih
    unfold cacheAdd
    cases h2 : cacheFind c s' with
    | some w => exact h
    | none =>
      by_cases hs : s' = s
      · subst hs; rw [h2] at h; exact absurd h (by simp)
      · simpa [cacheFind, hs] using h

/-- Memoization of the model cache: running `create_dhcp_models` again on
the same scopes, starting from the cache the first run produced, returns the
identical model list and leaves the cache unchanged. -/
theorem create_dhcp_models_idem :
    ∀ (ss : List String) (c : List (String × DhcpModel)),
      create_dhcp_models (create_dhcp_models c ss).2 ss =
        create_dhcp_models c ss := by
  intro ss
  induction ss with
  | nil => intro c; rfl
  | cons s rest ih =>
    intro c
    have hfound : cacheFind (create_dhcp_models (cacheAdd c s) rest).2 s =
        some ((cacheFind c s).getD (mkDhcpModel s)) :=
      cacheFind_create_dhcp_models _ rest (cacheAdd c s) s (cacheFind_cacheAdd_self c s)
    have hadd : cacheAdd (create_dhcp_models (cacheAdd c s) rest).2 s =
        (create_dhcp_models (cacheAdd c s) rest).2 :=
      cacheAdd_of_found hfound
    simp only [create_dhcp_models]
    rw [hadd, hfound, ih (cacheAdd c s), cacheFind_cacheAdd_self c s]

/-- C3: corrected.  The claimed raw lease line, collected under scope
`10.0.1.0`, parses to exactly the claimed record, but the model class the
router creates for the scope carries the physical table `temp_private_1`
(the third dot-separated token of `10.0.1.0` is `1` and the generated names
carry a `temp_` prefix), not `private_0` as the claim states. -/
theorem c3_end_to_end :
    parseLease "10.0.1.0"
        "10.0.1.23 -255.255.255.0 -00-11-22-33-44-55- N -N- desktop1.corp.local" =
      some { ip := "10.0.1.23", mac_address := "00:11:22:33:44:55",
             lease_status := "N", hostname := "desktop1", subnet := "10.0.1.0" } ∧
    (mkDhcpModel "10.0.1.0").tablename = some "temp_private_1" := by
  decide

/-- C3: the claim's routing target is false: the table derived for subnet
`10.0.1.0` is `temp_private_1`, not `private_0`, whatever lease line
produced the record. -/
theorem c3_counterexample :
    (mkDhcpModel "10.0.1.0").tablename = some "temp_private_1" ∧
    ¬ (mkDhcpModel "10.0.1.0").tablename = some "private_0" := by
  decide

/-- C4: corrected.  The table router is deterministic and idempotent (the
memoized `create_dhcp_models` run twice from the produced cache returns the
identical models and cache), `10.1.2.0` and `10.1.2.255` both map to
`temp_private_2`, and `192.168.1.0` maps to `temp_public_1`: the code uses
the third dot-separated token (`1` for `192.168.1.0`, not `168`) and puts a
`temp_` prefix on every name. -/
theorem c4_router :
    (∀ (cache : List (String × DhcpModel)) (scopes : List String),
      create_dhcp_models (create_dhcp_models cache scopes).2 scopes =
        create_dhcp_models cache scopes) ∧
    dhcpTableName "10.1.2.0" = some "temp_private_2" ∧
    dhcpTableName "10.1.2.255" = some "temp_private_2" ∧
    dhcpTableName "192.168.1.0" = some "temp_public_1" := by
  refine ⟨fun cache scopes => create_dhcp_models_idem scopes cache, by decide, by decide, by decide⟩

/-- C4: the claim's `public_168` example is false: the router maps
`192.168.1.0` to `temp_public_1` (third dot-separated token, `temp_`
prefix), not to `public_168`. -/
theorem c4_counterexample :
    dhcpTableName "192.168.1.0" = some "temp_public_1" ∧
    ¬ dhcpTableName "192.168.1.0" = some "public_168" := by
  decide

/-- C6: confirmed.  For every reverse zone, forward zone and PTR record, the
reverse parser emits an entry whose `data` is the reversed dotted prefix of
the zone (13-character suffix stripped) joined with the trimmed owner label,
and whose `hostname` is the (possibly forward-zone-stripped) PTR target; in
particular prefix tokens `1.168.192` with owner `5` reconstruct
`192.168.1.5`. -/
theorem c6_reverse_reconstruction :
    (∀ (dnsZone zone : String) (rec : RawDnsJson),
      getDnsReverseRecord dnsZone zone rec =
        { name := pyStrip rec.name
          hostname := stripForwardZone dnsZone (pyStrip (pyStr rec.data))
          record_type := pyStrip rec.rtype
          data := pyJoin '.' (pySplitStr '.' (pyDropRight zone 13)).reverse ++ "." ++
            pyStrip rec.hostname }) ∧
    getDnsReverseRecord "corp.local" "1.168.192.in-addr.arpa"
        { name := "1.168.192.in-addr.arpa", hostname := "5", rtype := "PTR",
          data := some "host5.corp.local." } =
      { name := "1.168.192.in-addr.arpa", hostname := "host5",
        record_type := "PTR", data := "192.168.1.5" } := by
  exact ⟨fun _ _ _ => rfl, by decide⟩

/-- C7: corrected.  Every field of a forward record is trimmed, and an
unsupported record type (JSON `Data` of `null`) raises no error — but its
`data` field becomes the string `"None"` (Python's `str(None)`), not the
empty string the claim states. -/
theorem c7_forward_contract :
    ∀ rec : RawDnsJson,
      getDnsForwardRecord rec =
        { name := pyStrip rec.name, hostname := pyStrip rec.hostname,
          record_type := pyStrip rec.rtype, data := pyStrip (pyStr rec.data) } ∧
      (rec.data = none → (getDnsForwardRecord rec).data = "None") := by
  intro rec
  refine ⟨rfl, fun h => ?_⟩
  show pyStrip (pyStr rec.data) = "None"
  rw [h]
  decide

/-- C7 witness: a trimmed supported record, and an unsupported  record whose
`data` evaluates to `"None"`. -/
theorem c7_forward_contract_witness :
    getDnsForwardRecord
        { name := " corp.local ", hostname := "host1 ", rtype := " TXT",
          data := some " hello " } =
      { name := "corp.local", hostname := "host1", record_type := "TXT",
        data := "hello" } ∧
    (getDnsForwardRecord
        { name := "corp.local", hostname := "h", rtype := "WINS", data := none }).data =
      "None" := by
  constructor
  · rw [(c7_forward_contract
      { name := " corp.local ", hostname := "host1 ", rtype := " TXT", data := some " hello " }).1]
    decide
  · exact (c7_forward_contract
      { name := "corp.local", hostname := "h", rtype := "WINS", data := none }).2 rfl

/-- C7: the claim is false as stated: a forward record of unsupported type
(`Data` null) yields the non-empty string `"None"` in the `data` field. -/
theorem c7_counterexample :
    (getDnsForwardRecord
        { name := "corp.local", hostname := "host1", rtype := "WINS", data := none }).data =
      "None" ∧
    ¬ (getDnsForwardRecord
        { name := "corp.local", hostname := "host1", rtype := "WINS", data := none }).data =
      "" := by
  decide

/-- Setting a table makes exactly its contents visible under its name. -/
theorem dbFind_dbSet_self (d : StoreDB) (t : String) (rows : List String) :
    dbFind (dbSet d t rows) t = some rows := by
  induction d with
  | nil => simp [dbSet, dbFind]
  | cons p rest ih =>
    by_cases h : p.1 = t
    · simp [dbSet, dbFind, h]
    · simp [dbSet, dbFind, h, ih]

/-- After a `DROP TABLE`, the table is not visible. -/
theorem dbFind_dropTable (d : StoreDB) (t : String) :
    dbFind (dbDrop d t) t = none := by
  induction d with
  | nil => rfl
  | cons p rest ih =>
    by_cases h : p.1 = t
    · simp [dbDrop, h, ih]
    · simp [dbDrop, h, dbFind, ih]

/-- Along a run of per-row committed inserts into a table currently holding
`acc`, the reader-visible contents of the table are exactly
`acc`, `acc ++ [r₁]`, `acc ++ [r₁, r₂]`, …: every intermediate prefix is a
visible state. -/
theorem statesAfter_inserts (t : String) :
    ∀ (rs : List String) (d : StoreDB) (acc : List String),
      dbFind d t = some acc →
      (statesAfter d (rs.map (StorageOp.insertRow t))).map (fun x => dbFind x t) =
        (List.range (rs.length + 1)).map (fun k => some (acc ++ rs.take k)) := by
  intro rs
  induction rs with
  | nil =>
    intro d acc h
    simp [statesAfter, h]
  | cons r rs ih =>
    intro d acc h
    have happ : applyOp d (StorageOp.insertRow t r) = dbSet d t (acc ++ [r]) := by
      simp [applyOp, h]
    have hstep : statesAfter d ((r :: rs).map (StorageOp.insertRow t)) =
        d :: statesAfter (dbSet d t (acc ++ [r])) (rs.map (StorageOp.insertRow t)) := by
      simp only [List.map_cons, statesAfter, List.scanl]
      rw [happ]
    rw [hstep, List.map_cons, h,
      ih (dbSet d t (acc ++ [r])) (acc ++ [r]) (dbFind_dbSet_self d t (acc ++ [r]))]
    conv_rhs => rw [List.range_succ_eq_map, List.map_cons, List.map_map]
    simp [Function.comp, List.take_succ_cons, List.append_assoc]

/-- C2: corrected.  Tables are not shadow-built and atomically swapped:
each one is dropped and recreated under its live name at cycle start and
rows are committed one at a time, so the reader-visible contents of the
table along one cycle are exactly: the previous snapshot, *no table at
all*, and every prefix of the new snapshot, ending with the full new
snapshot.  A reader can therefore observe an absent, empty or
half-populated table mid-cycle (`drop_and_rename_table` exists in
database.py but is never called). -/
theorem c2_table_replacement (prev : StoreDB) (t : String) (rows : List String) :
    (statesAfter prev (tableCycleOps t rows)).map (fun x => dbFind x t) =
      dbFind prev t :: none ::
        (List.range (rows.length + 1)).map (fun k => some (rows.take k)) := by
  have h1 : applyOp prev (StorageOp.dropTable t) = dbDrop prev t := rfl
  have h2 : dbFind (dbDrop prev t) t = none := dbFind_dropTable prev t
  have h3 : applyOp (dbDrop prev t) (StorageOp.createTable t) =
      dbSet (dbDrop prev t) t [] := by
    simp only [applyOp]
    rw [h2]
  have h4 : dbFind (dbSet (dbDrop prev t) t []) t = some [] :=
    dbFind_dbSet_self _ t []
  have hstep : statesAfter prev (tableCycleOps t rows) =
      prev :: dbDrop prev t ::
        statesAfter (dbSet (dbDrop prev t) t [])
          (rows.map (StorageOp.insertRow t)) := by
    simp only [tableCycleOps, statesAfter, List.scanl]
    rw [h1, h3]
  rw [hstep, List.map_cons, List.map_cons, h2,
    statesAfter_inserts t rows _ [] h4]
  simp

/-- C2: the claim is false at a concrete cycle: replacing the previous
snapshot `["a", "b"]` of the DNS table by the new snapshot `["c", "d"]`
makes the state `["c"]` — neither the complete previous nor the complete
new snapshot — visible under the live table name. -/
theorem c2_counterexample :
    some ["c"] ∈ (statesAfter [("temp_dns_records", ["a", "b"])]
        (tableCycleOps "temp_dns_records" ["c", "d"])).map
        (fun x => dbFind x "temp_dns_records") ∧
    ¬ (["c"] : List String) = ["a", "b"] ∧ ¬ (["c"] : List String) = ["c", "d"] := by
  decide

/-- C8: confirmed.  In both fan-out batches (DHCP per-scope and DNS-reverse
per-zone), when every target before the failing one succeeded, the batch
ends with exactly the records of those earlier siblings committed on top of
the database — nothing is discarded or rolled back — and the raised error
names the failing scope/zone. -/
theorem c8_partial_gather :
    (∀ (db : List LeaseRecord) (pre : List (String × String)) (scope e : String)
        (post : List (String × Except String String)),
      getDhcpBatch db
          ((pre.map fun p => (p.1, Except.ok p.2)) ++ (scope, Except.error e) :: post) =
        (db ++ (pre.map fun p => processScopeOutput p.1 p.2).flatten,
         some ("Error processing scope " ++ scope ++ ": " ++ e))) ∧
    (∀ (dnsZone : String) (db : List DnsEntry) (pre : List (String × List RawDnsJson))
        (zone e : String) (post : List (String × Except String (List RawDnsJson))),
      getDnsReverseBatch dnsZone db
          ((pre.map fun p => (p.1, Except.ok p.2)) ++ (zone, Except.error e) :: post) =
        (db ++ (pre.map fun p => p.2.map (getDnsReverseRecord dnsZone p.1)).flatten,
         some ("Error processing zone " ++ zone ++ ": " ++ e))) := by
  constructor
  · intro db pre
    induction pre generalizing db with
    | nil => intro scope e post; simp [getDhcpBatch]
    | cons p pre ih =>
      intro scope e post
      simp only [List.map_cons, List.cons_append, List.append_eq, getDhcpBatch,
        List.flatten_cons]
      rw [ih (db ++ processScopeOutput p.1 p.2) scope e post, List.append_assoc]
  · intro dnsZone db pre
    induction pre generalizing db with
    | nil => intro zone e post; simp [getDnsReverseBatch]
    | cons p pre ih =>
      intro zone e post
      simp only [List.map_cons, List.cons_append, List.append_eq, getDnsReverseBatch,
        List.flatten_cons]
      rw [ih (db ++ p.2.map (getDnsReverseRecord dnsZone p.1)) zone e post,
        List.append_assoc]

/-- C10: confirmed.  `Config` parses `SCOPES`/`DNS_REVERSE_ZONES` by
deleting every `[`, `]` and space then splitting on commas — bracketed and
bare forms give the same two-element list, an empty string gives `[""]` —
and an absent variable makes construction raise instead of defaulting. -/
theorem c10_config_parsing :
    parseListEnv "[10.0.1.0, 10.0.2.0]" = ["10.0.1.0", "10.0.2.0"] ∧
    parseListEnv "10.0.1.0,10.0.2.0" = ["10.0.1.0", "10.0.2.0"] ∧
    parseListEnv "" = [""] ∧
    (∀ r, configPostInit none r =
      Except.error "AttributeError: NoneType object has no attribute replace") ∧
    (∀ s, configPostInit (some s) none =
      Except.error "AttributeError: NoneType object has no attribute replace") := by
  exact ⟨by decide, by decide, by decide, fun _ => rfl, fun _ => rfl⟩

/-- A loop whose `is_last_run` flag is set performs no further iteration. -/
theorem runLoop_of_isLastRun (interval : Nat) (s : RunState)
    (inputs : List (Nat × Nat × Option String)) (h : s.isLastRun = true) :
    runLoop interval s inputs = (s, none) := by
  cases inputs with
  | nil => rfl
  | cons i rest => simp [runLoop, h]

/-- The scheduler-step invariant: cycle start times are spaced at least
`interval` apart, the last start precedes `last_runtime`, and
`last_runtime` precedes the clock.  One loop iteration preserves it. -/
theorem runStep_inv (N : Nat) (hN : 0 < N) (s : RunState)
    (i : Nat × Nat × Option String)
    (h1 : List.Chain' (fun x y => x + N ≤ y) s.cycles)
    (h2 : ∀ c ∈ s.cycles.getLast?, c ≤ s.lastRuntime)
    (h3 : s.lastRuntime ≤ s.now) :
    List.Chain' (fun x y => x + N ≤ y) (runStep N s i).1.cycles ∧
      (∀ c ∈ (runStep N s i).1.cycles.getLast?, c ≤ (runStep N s i).1.lastRuntime) ∧
      (runStep N s i).1.lastRuntime ≤ (runStep N s i).1.now := by
  obtain ⟨a, dur, res⟩ := i
  have hN0 : ¬ N = 0 := Nat.pos_iff_ne_zero.mp hN
  by_cases hc : N ≤ (s.now + a - s.lastRuntime) % 86400
  · have hle : s.lastRuntime ≤ s.now + a := le_trans h3 (Nat.le_add_right _ _)
    have hd : N ≤ s.now + a - s.lastRuntime := by
      rcases lt_or_ge (s.now + a - s.lastRuntime) 86400 with hlt | hge
      · rwa [Nat.mod_eq_of_lt hlt] at hc
      · exact le_trans (le_of_lt (lt_of_le_of_lt hc
          (Nat.mod_lt _ (by norm_num)))) hge
    have hfire : s.lastRuntime + N ≤ s.now + a := by omega
    have hchain : List.Chain' (fun x y => x + N ≤ y) (s.cycles ++ [s.now + a]) := by
      rw [List.chain'_append]
      refine ⟨h1, List.chain'_singleton _, fun x hx y hy => ?_⟩
      simp only [List.head?_cons, Option.mem_def, Option.some.injEq] at hy
      subst hy
      exact le_trans (Nat.add_le_add_right (h2 x hx) N) hfire
    have hlast : ∀ c ∈ (s.cycles ++ [s.now + a]).getLast?, c ≤ s.now + a := by
      intro c hcl
      rw [List.getLast?_concat] at hcl
      simp only [Option.mem_def, Option.some.injEq] at hcl
      omega
    cases res with
    | some e =>
      simp only [runStep, if_neg hN0, if_pos hc]
      exact ⟨hchain, fun c hcl => hlast c hcl, le_refl _⟩
    | none =>
      simp only [runStep, if_neg hN0, if_pos hc]
      exact ⟨hchain, fun c hcl => le_trans (hlast c hcl) (Nat.le_add_right _ _),
        Nat.le_succ _⟩
  · cases res with
    | some e =>
      simp only [runStep, if_neg hN0, if_neg hc]
      exact ⟨h1, h2, by omega⟩
    | none =>
      simp only [runStep, if_neg hN0, if_neg hc]
      exact ⟨h1, h2, by omega⟩

/-- The invariant of `runStep_inv` is preserved along any whole run,
whether it ends normally or with an escaped error. -/
theorem runLoop_inv (N : Nat) (hN : 0 < N) :
    ∀ (inputs : List (Nat × Nat × Option String)) (s : RunState),
      List.Chain' (fun x y => x + N ≤ y) s.cycles →
      (∀ c ∈ s.cycles.getLast?, c ≤ s.lastRuntime) →
      s.lastRuntime ≤ s.now →
      List.Chain' (fun x y => x + N ≤ y) (runLoop N s inputs).1.cycles := by
  intro inputs
  induction inputs with
  | nil => intro s h1 _ _; exact h1
  | cons i rest ih =>
    intro s h1 h2 h3
    obtain ⟨hc1, hc2, hc3⟩ := runStep_inv N hN s i h1 h2 h3
    by_cases hl : s.isLastRun
    · simpa [runLoop, hl] using h1
    · simp only [Bool.not_eq_true] at hl
      simp only [runLoop, hl, Bool.false_eq_true, if_false]
      cases hr : runStep N s i with
      | mk s' err =>
        rw [hr] at hc1 hc2 hc3
        cases err with
        | none => exact ih s' hc1 hc2 hc3
        | some e => exact hc1

/-- C5: confirmed.  With `interval = 0` the loop runs exactly one
collection cycle (at the first iteration's check time) and terminates,
whatever further iterations were available; with `interval = N > 0`, along
any run the successive cycle start times are always at least `N` seconds
apart — the `(now - last_runtime).seconds >= interval` guard (a modulo-86400
field of a delta measured from the previous cycle's *end*) can only fire at
least `N` seconds after the previous cycle started. -/
theorem c5_scheduler :
    (∀ (t0 a dur : Nat) (res : Option String)
        (rest : List (Nat × Nat × Option String)),
      (runLoop 0 (mkInit t0) ((a, dur, res) :: rest)).1.cycles = [t0 + a]) ∧
    (∀ (N t0 : Nat), 0 < N →
      ∀ inputs : List (Nat × Nat × Option String),
        List.Chain' (fun x y => x + N ≤ y)
          (runLoop N (mkInit t0) inputs).1.cycles) := by
  constructor
  · intro t0 a dur res rest
    cases res with
    | some e => simp [runLoop, mkInit, runStep]
    | none =>
      have hstep : runStep 0 ({ isLastRun := false, lastRuntime := t0,
                                now := t0, cycles := [] }) (a, dur, none) =
          ({ isLastRun := true, lastRuntime := t0, now := t0 + a + dur,
             cycles := [t0 + a] }, none) := by
        simp [runStep]
      have hrest : runLoop 0 ({ isLastRun := true, lastRuntime := t0,
                                now := t0 + a + dur, cycles := [t0 + a] }) rest =
          ({ isLastRun := true, lastRuntime := t0, now := t0 + a + dur,
             cycles := [t0 + a] }, none) :=
        runLoop_of_isLastRun 0 _ rest rfl
      simp [runLoop, mkInit, hstep, hrest]
  · intro N t0 hN inputs
    exact runLoop_inv N hN inputs (mkInit t0) (List.chain'_nil) (by simp [mkInit])
      (le_refl _)

/-- C5 witness: a single-shot run with one available follow-up iteration
still runs exactly one cycle, and a concrete repeating run's cycle starts
are 5 seconds apart. -/
theorem c5_scheduler_witness :
    (runLoop 0 (mkInit 7) [(3, 2, none), (9, 0, none)]).1.cycles = [7 + 3] ∧
    List.Chain' (fun x y => x + 5 ≤ y)
      (runLoop 5 (mkInit 0) [(5, 1, none), (2, 0, none), (5, 0, none)]).1.cycles :=
  ⟨c5_scheduler.1 7 3 2 none [(9, 0, none)],
   c5_scheduler.2 5 0 (by decide) [(5, 1, none), (2, 0, none), (5, 0, none)]⟩

/-- C1: corrected.  In *both* modes — single-shot (`interval = 0`) and
repeating (`interval > 0`, when the interval guard lets the cycle fire) — a
collection error escapes the `run` loop wrapped as
`RuntimeError("Error occurred during execution: ...")` (the loop has no
try/except): the run terminates with that error, the failing cycle is the
last one started, and no later scheduled iteration executes; the scheduler
never logs the failure and proceeds. -/
theorem c1_error_propagation :
    ∀ (N : Nat) (s : RunState) (a dur : Nat) (e : String)
      (rest : List (Nat × Nat × Option String)),
      s.isLastRun = false →
      (N = 0 ∨ N ≤ (s.now + a - s.lastRuntime) % 86400) →
      (runLoop N s ((a, dur, some e) :: rest)).2 =
          some ("Error occurred during execution: " ++ e) ∧
        (runLoop N s ((a, dur, some e) :: rest)).1.cycles =
          s.cycles ++ [s.now + a] := by
  intro N s a dur e rest hlast hcond
  by_cases h0 : N = 0
  · subst h0
    simp [runLoop, hlast, runStep]
  · rcases hcond with h | h
    · exact absurd h h0
    · simp [runLoop, hlast, runStep, h0, h]

/-- C1 witness: a concrete repeating-mode run in which the first cycle's
collection fails: the error escapes and the scheduled second cycle never
starts. -/
theorem c1_error_propagation_witness :
    (runLoop 5 (mkInit 2) [(5, 0, some "adapter failed"), (4, 0, none)]).2 =
        some ("Error occurred during execution: " ++ "adapter failed") ∧
      (runLoop 5 (mkInit 2) [(5, 0, some "adapter failed"), (4, 0, none)]).1.cycles =
        [] ++ [2 + 5] :=
  c1_error_propagation 5 (mkInit 2) 5 0 "adapter failed" [(4, 0, none)] rfl
    (Or.inr (by decide))

/-- C1: the repeating-mode half of the claim is false at a concrete run:
with `interval = 5`, a failing first cycle at second 5 and a second cycle
scheduled to fire at second 10, the loop returns immediately with the
wrapped error and its cycle log holds only the failing cycle — the
scheduler did not proceed to the next scheduled cycle. -/
theorem c1_counterexample :
    runLoop 5 (mkInit 0) [(5, 0, some "boom"), (5, 0, none)] =
      ({ isLastRun := false, lastRuntime := 5, now := 5, cycles := [5] },
       some "Error occurred during execution: boom") := by
  decide

/-- C9: confirmed.  For every lease line the splitter matches (any line of
any lease-export blob), when the colon-joined normalized MAC is longer than
17 characters the parser still emits the record, and its stored MAC is the
joined MAC with exactly one literal `":XX"` appended — the suffix check
runs once, so never more than one. -/
theorem c9_mac_suffix :
    ∀ (scope line left : String) (m : Char) (right : String),
      splitMarkerStr line = some (left, m, right) →
      pyStartsWith line "1" = true →
      17 < pyLen (leaseMacRaw left) →
      (parseLease scope line).map LeaseRecord.mac_address =
        some (leaseMacRaw left ++ ":XX") := by
  intro scope line left m right h1 h2 h3
  simp [parseLease, h1, h2, leaseMac, h3]

/-- C9 witness: a lease line carrying seven MAC octets (joined MAC of 20
characters) is still emitted, with exactly one `":XX"` suffix. -/
theorem c9_mac_suffix_witness :
    (parseLease "10.0.1.0"
        "10.0.1.23 -255.255.255.0 -00-11-22-33-44-55-66- N -N- host1.dom").map
        LeaseRecord.mac_address =
      some (leaseMacRaw "10.0.1.23 -255.255.255.0 -00-11-22-33-44-55-66- N " ++ ":XX") :=
  c9_mac_suffix "10.0.1.0"
    "10.0.1.23 -255.255.255.0 -00-11-22-33-44-55-66- N -N- host1.dom"
    "10.0.1.23 -255.255.255.0 -00-11-22-33-44-55-66- N " 'N' " host1.dom"
    (by decide) (by decide) (by decide)
